import Mathlib

/-!
Verification of the sprite-atlas generators of this repository:
`scripts/atlas.js` (the image-builder) and `scripts/generate_atlas_text.js`
(the descriptor-builder).  The two scripts are shallowly embedded below —
pure string/path helpers model the Node `path` library calls the scripts
make, a small inductive tree models the filesystem as seen through
`fs.promises.readdir(..., { withFileTypes: true })`, and each script's
main function becomes a pure function from the modelled inputs to an exit
code and an optional written artifact.
-/

/-- Position of the last occurrence of the character `c` in the list, if any
(the index counted from the front).  Models `String.prototype.lastIndexOf`
for a single-character needle. -/
def lastIndexOfChar (c : Char) : List Char → Option Nat
  | [] => none
  | a :: rest =>
    match lastIndexOfChar c rest with
    | some i => some (i + 1)
    | none => if a = c then some 0 else none

/-- Model of `s.replace(/\\/g, '/')`: every backslash becomes a forward
slash. -/
def normalizeSlashes (s : String) : String :=
  String.mk (s.data.map (fun c => if c = '\\' then '/' else c))

/-- Model of Node `path.join(a, b)` for the plain path segments the scripts
pass (no `.`/`..` components, no trailing separators): the two parts joined
with a single `/`. -/
def pathJoin (a b : String) : String :=
  if a = "" then b else if b = "" then a else a ++ "/" ++ b

/-- The final path segment: everything after the last `/`.  Model of Node
`path.basename(p)` for forward-slash paths. -/
def basenameOf (p : String) : String :=
  match lastIndexOfChar '/' p.data with
  | none => p
  | some i => String.mk (p.data.drop (i + 1))

/-- Model of Node `path.extname(p)`: the suffix of the final path segment
from its last `.` on; empty when the segment has no dot or only a leading
dot. -/
def extname (p : String) : String :=
  let b := basenameOf p
  match lastIndexOfChar '.' b.data with
  | none => ""
  | some 0 => ""
  | some i => String.mk (b.data.drop i)

/-- Model of Node `path.basename(p, ext)`: the final path segment, with a
trailing `ext` removed when it is a proper suffix of that segment. -/
def basenameStrip (p ext : String) : String :=
  let b := basenameOf p
  if ext ≠ "" ∧ ext.data.length < b.data.length ∧
      b.data.drop (b.data.length - ext.data.length) = ext.data then
    String.mk (b.data.take (b.data.length - ext.data.length))
  else b

/-- Model of `s.substring(0, s.lastIndexOf('.'))` as used on the region
names: everything strictly before the last dot; when there is no dot,
JavaScript evaluates `s.substring(0, -1)`, which is the empty string. -/
def beforeLastDot (s : String) : String :=
  match lastIndexOfChar '.' s.data with
  | none => ""
  | some i => String.mk (s.data.take i)

/-- Model of Node `path.relative(dir, p)` restricted to the one shape the
scripts use it on: every probed path was produced by joining names onto
`dir`, so it lies strictly beneath `dir` and the relative path is obtained
by dropping the `dir ++ "/"` front. -/
def relativeTo (dir p : String) : String :=
  let d := (dir ++ "/").data
  if p.data.take d.length = d then String.mk (p.data.drop d.length) else p

/-- The fixed extension allow-list shared by both scripts (atlas.js line 41,
generate_atlas_text.js line 41). -/
def imageExtensions : List String := [".png", ".jpg", ".jpeg", ".bmp", ".gif"]

/-- ASCII lowering of one character, as `String.prototype.toLowerCase`
behaves on the ASCII range the extension comparison cares about. -/
def toLowerChar (c : Char) : Char :=
  if 'A' ≤ c ∧ c ≤ 'Z' then Char.ofNat (c.toNat + 32) else c

/-- Model of `s.toLowerCase()` on ASCII strings: each character lowered. -/
def asciiToLower (s : String) : String :=
  String.mk (s.data.map toLowerChar)

/-- The per-entry test of the discovery filter:
`['.png', '.jpg', '.jpeg', '.bmp', '.gif'].includes(path.extname(entry.name).toLowerCase())`. -/
def isImageFileName (name : String) : Bool :=
  imageExtensions.contains (asciiToLower (extname name))

/-- A directory tree as surfaced by `fs.promises.readdir` with
`withFileTypes`: each entry is a regular file or a subdirectory carrying its
own entries, listed in enumeration order. -/
inductive FSEntry : Type where
  | file (name : String)
  | dir (name : String) (entries : List FSEntry)

/-- Shallow embedding of `getImageFilesRecursively` — the function appears
verbatim in both scripts (atlas.js lines 33-49, generate_atlas_text.js
lines 33-48).  Each entry of the directory contributes, in enumeration
order: a recursive scan when it is a subdirectory, its joined path when it
is a file passing the extension filter, and nothing otherwise; the
per-entry lists are concatenated (`files.flat()`). -/
def getImageFilesRecursively (dir : String) : List FSEntry → List String
  | [] => []
  | FSEntry.file name :: rest =>
    (if isImageFileName name then [pathJoin dir name] else []) ++
      getImageFilesRecursively dir rest
  | FSEntry.dir name sub :: rest =>
    getImageFilesRecursively (pathJoin dir name) sub ++
      getImageFilesRecursively dir rest

/-- Model of `imageFiles.sort()` (atlas.js line 81, generate_atlas_text.js
line 80): the default string sort, a fixed lexicographic total order on the
path strings. -/
def sortPaths (l : List String) : List String :=
  List.insertionSort (· ≤ ·) l

/-- One placement of the vertical-stacking layout: an image pasted at
`(x, y)` with its own size. -/
structure Placement where
  x : Nat
  y : Nat
  width : Nat
  height : Nat
deriving DecidableEq

instance : Inhabited Placement := ⟨⟨0, 0, 0, 0⟩⟩

/-- The outcome of one script invocation: the process exit code, and the
artifact the script wrote, when it wrote one. -/
structure RunResult (α : Type) where
  exitCode : Nat
  written : Option α

namespace Atlas

/-- The `maxWidth` / `totalHeight` accumulation of the image-loading loop of
`createSpritesheet` (atlas.js lines 85-103), over the ordered list of image
dimensions `(width, height)`: both start at `0`; each image raises the
running maximum width and adds its height. -/
def canvasSpec (imgs : List (Nat × Nat)) : Nat × Nat :=
  imgs.foldl (fun st wh => (max st.1 wh.1, st.2 + wh.2)) (0, 0)

/-- The `(0, yOffset)` paste coordinates of the composite loop of
`createSpritesheet` (atlas.js lines 108-116), starting from offset `y`:
each image is pasted at `x = 0` and the current offset, which then advances
by the image's height. -/
def compositeOffsets (y : Nat) : List (Nat × Nat) → List (Nat × Nat)
  | [] => []
  | wh :: rest => (0, y) :: compositeOffsets (y + wh.2) rest

/-- An in-memory raster image: a size and a pixel lookup (a 32-bit RGBA
sample as a number, with `0` the fully transparent pixel). -/
structure Image where
  width : Nat
  height : Nat
  pix : Nat → Nat → Nat

instance : Inhabited Image := ⟨⟨0, 0, fun _ _ => 0⟩⟩

/-- Modelled from the spec: `new Jimp({ width, height, color: 0x00000000 })`
(atlas.js line 106) is a call into the external image codec; per the spec's
compositor contract it allocates a canvas of the given size with every pixel
fully transparent. -/
def blankCanvas (w h : Nat) : Image :=
  ⟨w, h, fun _ _ => 0⟩

/-- Modelled from the spec: `spritesheet.composite(image, x0, y0)`
(atlas.js line 113) is a call into the external image codec; per the spec's
compositor contract source pixels overwrite destination pixels inside the
pasted rectangle — a straight copy, no blending. -/
def composite (sheet img : Image) (x0 y0 : Nat) : Image :=
  ⟨sheet.width, sheet.height, fun x y =>
    if x0 ≤ x ∧ x < x0 + img.width ∧ y0 ≤ y ∧ y < y0 + img.height then
      img.pix (x - x0) (y - y0)
    else sheet.pix x y⟩

/-- The composite loop of `createSpritesheet` (atlas.js lines 108-116):
paste each loaded image at `(0, yOffset)` and advance the offset by its
height. -/
def compositeAll (sheet : Image) (y : Nat) : List Image → Image
  | [] => sheet
  | img :: rest => compositeAll (composite sheet img 0 y) (y + img.height) rest

/-- The canvas construction of `createSpritesheet` (atlas.js lines 105-116):
a blank canvas of the accumulated `maxWidth × totalHeight`, with every
loaded image composited at its cumulative offset. -/
def buildSpritesheet (images : List Image) : Image :=
  let c := canvasSpec (images.map (fun i => (i.width, i.height)))
  compositeAll (blankCanvas c.1 c.2) 0 images

/-- Shallow embedding of `createSpritesheet` (atlas.js lines 69-127).
`load` models `Jimp.read`, returning `none` on a load failure.  An empty
discovery returns early with no output and exit code `0`; a load failure
inside the loop throws, is caught, and the process exits with code `1`
before the output write; otherwise the composited sheet is written and the
process ends normally. -/
def createSpritesheet (root : String) (tree : List FSEntry)
    (load : String → Option Image) : RunResult Image :=
  if sortPaths (getImageFilesRecursively root tree) = [] then ⟨0, none⟩
  else
    match (sortPaths (getImageFilesRecursively root tree)).mapM load with
    | none => ⟨1, none⟩
    | some images => ⟨0, some (buildSpritesheet images)⟩

end Atlas

namespace GenText

/-- The `maxWidth` / `totalHeight` accumulation of the dimension-probing
loop of `generateAtlasTextFile` (generate_atlas_text.js lines 84-100), over
the ordered list of image dimensions. -/
def canvasSpec (imgs : List (Nat × Nat)) : Nat × Nat :=
  imgs.foldl (fun st wh => (max st.1 wh.1, st.2 + wh.2)) (0, 0)

/-- The placements of the region-writing loop of `generateAtlasTextFile`
(generate_atlas_text.js lines 111-126), starting from offset `y`: each
image gets `xy: 0, yOffset` and its own size, and the offset advances by
the image's height. -/
def regionPlacements (y : Nat) : List (Nat × Nat) → List Placement
  | [] => []
  | wh :: rest => ⟨0, y, wh.1, wh.2⟩ :: regionPlacements (y + wh.2) rest

/-- The derivation of the atlas image reference name
(generate_atlas_text.js line 19):
`path.basename(outputFileName, path.extname(outputFileName)) + '.png'`. -/
def outputImageReferenceName (outputFileName : String) : String :=
  basenameStrip outputFileName (extname outputFileName) ++ ".png"

/-- The derivation of the prepend path (generate_atlas_text.js line 21):
`args[2] ? args[2].replace(/\\/g, '/') + '/' : ''` — an absent or empty
third argument is falsy and yields the empty prefix, otherwise slashes are
normalized and a trailing `/` is appended. -/
def prependPathOf (arg : Option String) : String :=
  match arg with
  | none => ""
  | some s => if s = "" then "" else normalizeSlashes s ++ "/"

/-- The fixed header of the descriptor (generate_atlas_text.js
lines 105-109). -/
def headerLines (refName : String) (maxWidth totalHeight : Nat) : String :=
  refName ++ "\n" ++
  "size: " ++ toString maxWidth ++ ", " ++ toString totalHeight ++ "\n" ++
  "format: RGBA8888\n" ++
  "filter: MipMapLinearLinear, MipMapLinearLinear\n" ++
  "repeat: none\n"

/-- The region-writing loop of `generateAtlasTextFile`
(generate_atlas_text.js lines 111-126) starting at offset `y`, over the
probed `imageData` records `(path, width, height)`: the relative path is
taken from the scanned directory, backslashes are normalized, the extension
is stripped, the prepend path goes in front, and the block's lines follow
the fixed template. -/
def regionBlocks (prependPath dir : String) (y : Nat) :
    List (String × Nat × Nat) → String
  | [] => ""
  | (p, w, h) :: rest =>
    let relWithExt := normalizeSlashes (relativeTo dir p)
    let relNoExt := beforeLastDot relWithExt
    prependPath ++ relNoExt ++ "\n" ++
    "  rotate: false\n" ++
    "  xy: 0, " ++ toString y ++ "\n" ++
    "  size: " ++ toString w ++ ", " ++ toString h ++ "\n" ++
    "  orig: " ++ toString w ++ ", " ++ toString h ++ "\n" ++
    "  offset: 0, 0\n" ++
    "  index: -1\n" ++
    regionBlocks prependPath dir (y + h) rest

/-- The whole descriptor document built by `generateAtlasTextFile`
(generate_atlas_text.js lines 102-126): the header over the accumulated
canvas dimensions, then one region block per probed image in order. -/
def generateAtlasContent (refName prependPath dir : String)
    (imageData : List (String × Nat × Nat)) : String :=
  let c := canvasSpec (imageData.map (fun i => (i.2.1, i.2.2)))
  headerLines refName c.1 c.2 ++ regionBlocks prependPath dir 0 imageData

/-- Shallow embedding of `generateAtlasTextFile`
(generate_atlas_text.js lines 68-137).  `probe` models the
`getImageDimensions` call, returning `none` on failure.  An empty discovery
returns early with no output and exit code `0`; a probing failure aborts
with exit code `1` before the descriptor write; otherwise the rendered
descriptor text is written. -/
def generateAtlasTextFile (root : String) (tree : List FSEntry)
    (probe : String → Option (Nat × Nat)) (outputFileName : String)
    (prependArg : Option String) : RunResult String :=
  if sortPaths (getImageFilesRecursively root tree) = [] then ⟨0, none⟩
  else
    match (sortPaths (getImageFilesRecursively root tree)).mapM
        (fun p => (probe p).map (fun wh => (p, wh.1, wh.2))) with
    | none => ⟨1, none⟩
    | some imageData =>
      ⟨0, some (generateAtlasContent (outputImageReferenceName outputFileName)
        (prependPathOf prependArg) root imageData)⟩

end GenText

/-- The path wiring at the top of both scripts (atlas.js lines 19-26,
generate_atlas_text.js lines 16-26): with fewer than two arguments the
process exits immediately; otherwise the image directory and the output
file path are both obtained by joining the argument onto `__dirname`, the
directory of the script file.  The process's current working directory is
part of the process state and is threaded through as `_cwd`, but the
scripts never consult it. -/
def resolveScriptPaths (scriptDir _cwd : String) (args : List String) :
    Option (String × String) :=
  match args with
  | a0 :: a1 :: _ => some (pathJoin scriptDir a0, pathJoin scriptDir a1)
  | _ => none

/-- Specification-side collector for the discovery contract: every regular
file beneath the root, at any depth, as a pair of its full (joined) path and
its own entry name, in traversal order; directories themselves contribute
nothing beyond their contents. -/
def specAllFiles (dir : String) : List FSEntry → List (String × String)
  | [] => []
  | FSEntry.file name :: rest =>
    (pathJoin dir name, name) :: specAllFiles dir rest
  | FSEntry.dir name sub :: rest =>
    specAllFiles (pathJoin dir name) sub ++ specAllFiles dir rest

/-- Specification-side rendering of one region block of §4.4: the region's
name, `rotate: false`, its `xy`, equal `size` and `orig` lines taken from
the placement, `offset: 0, 0` and `index: -1`. -/
def specRegionBlock (r : String × Placement) : String :=
  r.1 ++ "\n" ++
  "  rotate: false\n" ++
  "  xy: " ++ toString r.2.x ++ ", " ++ toString r.2.y ++ "\n" ++
  "  size: " ++ toString r.2.width ++ ", " ++ toString r.2.height ++ "\n" ++
  "  orig: " ++ toString r.2.width ++ ", " ++ toString r.2.height ++ "\n" ++
  "  offset: 0, 0\n" ++
  "  index: -1\n"

/-- Specification-side rendering of the whole descriptor document of §4.4:
the atlas reference name, the `size`/`format`/`filter`/`repeat` header over
the canvas spec, then one region block per placement, in placement order. -/
def specDescriptorDoc (refName : String) (canvas : Nat × Nat)
    (regions : List (String × Placement)) : String :=
  refName ++ "\n" ++
  "size: " ++ toString canvas.1 ++ ", " ++ toString canvas.2 ++ "\n" ++
  "format: RGBA8888\n" ++
  "filter: MipMapLinearLinear, MipMapLinearLinear\n" ++
  "repeat: none\n" ++
  String.join (regions.map specRegionBlock)

/-- Specification-side region name of §4.4: the image's path relative to the
scanned root, separators normalized to forward slashes, the extension
stripped, and the (already slash-terminated) prepend path in front. -/
def specRegionName (prependPath dir p : String) : String :=
  prependPath ++ beforeLastDot (normalizeSlashes (relativeTo dir p))

/-- The pairwise form in which the spec states the stacking property: any
two distinct placements `i < j` of the sequence satisfy
`placement[i].y + placement[i].height = placement[j].y`. -/
def pairwiseFlush (ps : List Placement) : Prop :=
  ∀ i j : Fin ps.length, (i : Nat) < (j : Nat) →
    (ps.get i).y + (ps.get i).height = (ps.get j).y

instance (ps : List Placement) : Decidable (pairwiseFlush ps) := by
  unfold pairwiseFlush; infer_instance

/-- Sum of the heights of the first `i` images: the cumulative offset at
which image `i` is pasted. -/
def heightsBefore (images : List Atlas.Image) (i : Nat) : Nat :=
  ((images.take i).map Atlas.Image.height).sum

theorem getImageFiles_eq_filter (dir : String) :
    (entries : List FSEntry) →
    getImageFilesRecursively dir entries =
      ((specAllFiles dir entries).filter (fun e => isImageFileName e.2)).map
        Prod.fst
  | [] => by simp [getImageFilesRecursively, specAllFiles]
  | FSEntry.file name :: rest => by
    have ih := getImageFiles_eq_filter dir rest
    by_cases h : isImageFileName name <;>
      simp [getImageFilesRecursively, specAllFiles, h, ih, List.filter_cons]
  | FSEntry.dir name sub :: rest => by
    have ih1 := getImageFiles_eq_filter (pathJoin dir name) sub
    have ih2 := getImageFiles_eq_filter dir rest
    simp [getImageFilesRecursively, specAllFiles, ih1, ih2]

/-- C4: discovery returns exactly the regular files, at any depth under the
root, whose extension compares case-insensitively equal to one of `.png`,
`.jpg`, `.jpeg`, `.bmp`, `.gif`; directories and files with any other
extension (for example `.txt`) are excluded.  The shared
`getImageFilesRecursively` equals the spec-side list of all regular files
filtered by the case-insensitive extension allow-list, and on a sample
directory the `.txt` neighbour is dropped. -/
theorem discovery_filters_image_files (dir : String) (entries : List FSEntry) :
    getImageFilesRecursively dir entries =
      ((specAllFiles dir entries).filter (fun e => isImageFileName e.2)).map
        Prod.fst ∧
    isImageFileName "notes.txt" = false ∧
    isImageFileName "A.PNG" = true ∧
    getImageFilesRecursively "root"
        [FSEntry.file "1.png",
         FSEntry.dir "sub" [FSEntry.file "2.JPG", FSEntry.file "notes.txt"]] =
      ["root/1.png", "root/sub/2.JPG"] :=
  ⟨getImageFiles_eq_filter dir entries, by decide, by decide,
   by simp only [getImageFilesRecursively]; decide⟩

/-- C5: the ordered path sequence is a pure function of the set of
discovered path strings — sorting any two enumeration orders (permutations)
of the same file set yields the identical sequence. -/
theorem sortPaths_perm_invariant (l₁ l₂ : List String) (h : l₁.Perm l₂) :
    sortPaths l₁ = sortPaths l₂ := by
  exact List.eq_of_perm_of_sorted
    (((List.perm_insertionSort _ l₁).trans h).trans
      (List.perm_insertionSort _ l₂).symm)
    (List.sorted_insertionSort _ l₁) (List.sorted_insertionSort _ l₂)

/-- Witness for C5 at a concrete pair of enumeration orders. -/
theorem sortPaths_perm_invariant_witness :
    List.Perm ["b/2.png", "a/1.png"] ["a/1.png", "b/2.png"] ∧
    sortPaths ["b/2.png", "a/1.png"] = sortPaths ["a/1.png", "b/2.png"] :=
  ⟨List.Perm.swap "a/1.png" "b/2.png" [],
   sortPaths_perm_invariant _ _ (List.Perm.swap "a/1.png" "b/2.png" [])⟩

theorem canvasSpec_foldl (imgs : List (Nat × Nat)) (m s : Nat) :
    imgs.foldl (fun st wh => (max st.1 wh.1, st.2 + wh.2)) (m, s) =
      ((imgs.map Prod.fst).foldl max m, s + (imgs.map Prod.snd).sum) := by
  induction imgs generalizing m s with
  | nil => simp
  | cons wh rest ih => simp [ih, Nat.add_assoc]

theorem foldl_max_mem_cons (a : Nat) (l : List Nat) : l.foldl max a ∈ a :: l := by
  induction l generalizing a with
  | nil => simp
  | cons x xs ih =>
    have h := ih (max a x)
    rcases List.mem_cons.mp h with h1 | h2
    · simp only [List.foldl_cons]
      rw [h1]
      rcases max_choice a x with hm | hm <;> rw [hm]
      · exact List.mem_cons_self a _
      · exact List.mem_cons_of_mem a (List.mem_cons_self x _)
    · simp only [List.foldl_cons]
      exact List.mem_cons_of_mem a (List.mem_cons_of_mem x h2)

theorem le_foldl_max (l : List Nat) (a : Nat) : a ≤ l.foldl max a := by
  induction l generalizing a with
  | nil => simp
  | cons x xs ih => exact le_trans (Nat.le_max_left a x) (ih (max a x))

theorem mem_le_foldl_max (l : List Nat) (a : Nat) : ∀ x ∈ l, x ≤ l.foldl max a := by
  induction l generalizing a with
  | nil => simp
  | cons y ys ih =>
    intro x hx
    rcases List.mem_cons.mp hx with rfl | h
    · exact le_trans (Nat.le_max_right a x) (le_foldl_max ys (max a x))
    · exact ih (max a y) x h

/-- C1: for every non-empty list of discovered image dimensions, both
generators accumulate the same canvas, whose height is the sum of all
heights and whose width is the maximum of all widths (it occurs in the list
and bounds every entry). -/
theorem canvas_width_is_max_height_is_sum (imgs : List (Nat × Nat))
    (h : imgs ≠ []) :
    Atlas.canvasSpec imgs = GenText.canvasSpec imgs ∧
    (Atlas.canvasSpec imgs).2 = (imgs.map Prod.snd).sum ∧
    (Atlas.canvasSpec imgs).1 ∈ imgs.map Prod.fst ∧
    ∀ w ∈ imgs.map Prod.fst, w ≤ (Atlas.canvasSpec imgs).1 := by
  have e : Atlas.canvasSpec imgs =
      ((imgs.map Prod.fst).foldl max 0, (imgs.map Prod.snd).sum) := by
    simpa [Atlas.canvasSpec] using canvasSpec_foldl imgs 0 0
  refine ⟨rfl, by rw [e], ?_, ?_⟩
  · rw [e]
    cases hm : imgs.map Prod.fst with
    | nil => exact absurd (List.map_eq_nil_iff.mp hm) h
    | cons w ws =>
      have h1 : (w :: ws).foldl max 0 = ws.foldl max w := by
        simp [Nat.zero_max]
      rw [h1]
      exact foldl_max_mem_cons w ws
  · rw [e]
    exact mem_le_foldl_max _ 0

/-- Witness for C1 at the spec's two-image scenario, where the canvas is
30 × 25. -/
theorem canvas_width_is_max_height_is_sum_witness :
    ([((10 : Nat), (20 : Nat)), (30, 5)] : List (Nat × Nat)) ≠ [] ∧
    (Atlas.canvasSpec [(10, 20), (30, 5)] = GenText.canvasSpec [(10, 20), (30, 5)] ∧
     (Atlas.canvasSpec [(10, 20), (30, 5)]).2 =
       ([((10 : Nat), (20 : Nat)), (30, 5)].map Prod.snd).sum ∧
     (Atlas.canvasSpec [(10, 20), (30, 5)]).1 ∈
       [((10 : Nat), (20 : Nat)), (30, 5)].map Prod.fst ∧
     ∀ w ∈ [((10 : Nat), (20 : Nat)), (30, 5)].map Prod.fst,
       w ≤ (Atlas.canvasSpec [(10, 20), (30, 5)]).1) ∧
    Atlas.canvasSpec [(10, 20), (30, 5)] = (30, 25) ∧
    GenText.canvasSpec [(10, 20), (30, 5)] = (30, 25) :=
  ⟨by decide, canvas_width_is_max_height_is_sum _ (by decide), by decide, by decide⟩

/-- Counterexample to C2 as stated: with three stacked 1 × 1 images the
claimed equation fails for the non-consecutive pair `i = 0`, `j = 2` —
placement 0 ends at `y = 1` while placement 2 starts at `y = 2`. -/
theorem stacking_pairwise_flush_cex :
    ¬ pairwiseFlush (GenText.regionPlacements 0 [(1, 1), (1, 1), (1, 1)]) := by
  decide

theorem regionPlacements_length (y : Nat) (imgs : List (Nat × Nat)) :
    (GenText.regionPlacements y imgs).length = imgs.length := by
  induction imgs generalizing y with
  | nil => rfl
  | cons wh rest ih => simp [GenText.regionPlacements, ih]

theorem regionPlacements_head_y (y : Nat) (imgs : List (Nat × Nat))
    (h : 0 < imgs.length) :
    ((GenText.regionPlacements y imgs).getD 0 default).y = y := by
  cases imgs with
  | nil => simp at h
  | cons wh rest => simp [GenText.regionPlacements]

theorem regionPlacements_consecutive (imgs : List (Nat × Nat)) (y i : Nat)
    (h : i + 1 < imgs.length) :
    ((GenText.regionPlacements y imgs).getD i default).y +
      ((GenText.regionPlacements y imgs).getD i default).height =
      ((GenText.regionPlacements y imgs).getD (i + 1) default).y := by
  induction imgs generalizing y i with
  | nil => simp at h
  | cons wh rest ih =>
    cases i with
    | zero =>
      have hr : 0 < rest.length := Nat.lt_of_succ_lt_succ h
      simp only [GenText.regionPlacements, List.getD_cons_zero,
        List.getD_cons_succ]
      exact (regionPlacements_head_y (y + wh.2) rest hr).symm
    | succ n =>
      have hn : n + 1 < rest.length := Nat.lt_of_succ_lt_succ h
      simp only [GenText.regionPlacements, List.getD_cons_succ]
      exact ih (y + wh.2) n hn

theorem regionPlacements_x (y : Nat) (imgs : List (Nat × Nat)) :
    ∀ p ∈ GenText.regionPlacements y imgs, p.x = 0 := by
  induction imgs generalizing y with
  | nil => simp [GenText.regionPlacements]
  | cons wh rest ih =>
    intro p hp
    simp only [GenText.regionPlacements, List.mem_cons] at hp
    rcases hp with rfl | h
    · rfl
    · exact ih (y + wh.2) p h

/-- C2 (amended): every placement of the cumulative y-offset loop has
`x = 0`, the first placement has `y = 0`, and every pair of CONSECUTIVE
placements `i`, `i + 1` is flush —
`placement[i].y + placement[i].height = placement[i+1].y` (contiguous
stacking, no gaps, no overlap); for non-consecutive pairs `i < j` the
equation stated by the spec does not hold in general. -/
theorem stacking_contiguous (imgs : List (Nat × Nat)) :
    (∀ p ∈ GenText.regionPlacements 0 imgs, p.x = 0) ∧
    (0 < imgs.length →
      ((GenText.regionPlacements 0 imgs).getD 0 default).y = 0) ∧
    (∀ i, i + 1 < imgs.length →
      ((GenText.regionPlacements 0 imgs).getD i default).y +
        ((GenText.regionPlacements 0 imgs).getD i default).height =
        ((GenText.regionPlacements 0 imgs).getD (i + 1) default).y) :=
  ⟨regionPlacements_x 0 imgs,
   fun h => regionPlacements_head_y 0 imgs h,
   fun i h => regionPlacements_consecutive imgs 0 i h⟩

/-- Witness for the amended C2 at the spec's two-image scenario. -/
theorem stacking_contiguous_witness :
    ((GenText.regionPlacements 0 [((10 : Nat), (20 : Nat)), (30, 5)]).getD 0
        default).x = 0 ∧
    (0 < [((10 : Nat), (20 : Nat)), (30, 5)].length ∧
     ((GenText.regionPlacements 0 [((10 : Nat), (20 : Nat)), (30, 5)]).getD 0
        default).y = 0) ∧
    (0 + 1 < [((10 : Nat), (20 : Nat)), (30, 5)].length ∧
     ((GenText.regionPlacements 0 [((10 : Nat), (20 : Nat)), (30, 5)]).getD 0
        default).y +
       ((GenText.regionPlacements 0 [((10 : Nat), (20 : Nat)), (30, 5)]).getD 0
        default).height =
       ((GenText.regionPlacements 0 [((10 : Nat), (20 : Nat)), (30, 5)]).getD 1
        default).y) :=
  ⟨(stacking_contiguous [(10, 20), (30, 5)]).1 _ (by decide),
   ⟨by decide, (stacking_contiguous [(10, 20), (30, 5)]).2.1 (by decide)⟩,
   ⟨by decide, (stacking_contiguous [(10, 20), (30, 5)]).2.2 0 (by decide)⟩⟩

theorem layout_map_xy (imgs : List (Nat × Nat)) (y : Nat) :
    (GenText.regionPlacements y imgs).map (fun p => (p.x, p.y)) =
      Atlas.compositeOffsets y imgs := by
  induction imgs generalizing y with
  | nil => rfl
  | cons wh rest ih =>
    simp [GenText.regionPlacements, Atlas.compositeOffsets, ih]

theorem layout_map_sizes (imgs : List (Nat × Nat)) (y : Nat) :
    (GenText.regionPlacements y imgs).map (fun p => (p.width, p.height)) =
      imgs := by
  induction imgs generalizing y with
  | nil => rfl
  | cons wh rest ih => simp [GenText.regionPlacements, ih]

theorem mapM_eq_none_of_mem {α β : Type} (f : α → Option β) (l : List α)
    (a : α) (ha : a ∈ l) (hf : f a = none) : l.mapM f = none := by
  induction l with
  | nil => simp at ha
  | cons x xs ih =>
    rw [List.mapM_cons]
    rcases List.mem_cons.mp ha with rfl | h
    · rw [hf]; rfl
    · cases hx : f x with
      | none => rfl
      | some b => rw [ih h]; rfl

theorem mapM_eq_some_of_forall {α β : Type} (f : α → Option β) (l : List α)
    (h : ∀ a ∈ l, (f a).isSome) : ∃ ys, l.mapM f = some ys := by
  induction l with
  | nil => exact ⟨[], rfl⟩
  | cons x xs ih =>
    obtain ⟨b, hb⟩ := Option.isSome_iff_exists.mp (h x (List.mem_cons_self x xs))
    obtain ⟨ys, hys⟩ := ih (fun a ha => h a (List.mem_cons_of_mem x ha))
    refine ⟨b :: ys, ?_⟩
    rw [List.mapM_cons, hb, hys]
    rfl

/-- C6: when discovery finds zero image files, both programs terminate with
exit status 0 and write no output artifact at all — neither the atlas image
nor the descriptor. -/
theorem empty_discovery_clean_exit (root : String) (tree : List FSEntry)
    (load : String → Option Atlas.Image) (probe : String → Option (Nat × Nat))
    (outputFileName : String) (prependArg : Option String)
    (h : getImageFilesRecursively root tree = []) :
    (Atlas.createSpritesheet root tree load).exitCode = 0 ∧
    (Atlas.createSpritesheet root tree load).written = none ∧
    (GenText.generateAtlasTextFile root tree probe outputFileName
        prependArg).exitCode = 0 ∧
    (GenText.generateAtlasTextFile root tree probe outputFileName
        prependArg).written = none := by
  have hs : sortPaths (getImageFilesRecursively root tree) = [] := by
    rw [h]; rfl
  refine ⟨?_, ?_, ?_, ?_⟩ <;>
    simp [Atlas.createSpritesheet, GenText.generateAtlasTextFile, hs]

/-- Witness for C6 at a directory holding only a non-image file. -/
theorem empty_discovery_clean_exit_witness :
    getImageFilesRecursively "r" [FSEntry.file "readme.txt"] = [] ∧
    ((Atlas.createSpritesheet "r" [FSEntry.file "readme.txt"]
        (fun _ => none)).exitCode = 0 ∧
     (Atlas.createSpritesheet "r" [FSEntry.file "readme.txt"]
        (fun _ => none)).written = none ∧
     (GenText.generateAtlasTextFile "r" [FSEntry.file "readme.txt"]
        (fun _ => none) "tiles.txt" none).exitCode = 0 ∧
     (GenText.generateAtlasTextFile "r" [FSEntry.file "readme.txt"]
        (fun _ => none) "tiles.txt" none).written = none) :=
  ⟨by simp only [getImageFilesRecursively]; decide,
   empty_discovery_clean_exit "r" [FSEntry.file "readme.txt"] (fun _ => none)
     (fun _ => none) "tiles.txt" none
     (by simp only [getImageFilesRecursively]; decide)⟩

/-- C7: if loading or dimension-probing any single discovered image fails,
the run aborts with exit status 1 and no artifact is written (no partial
output); when every load or probe succeeds, the run exits with status 0 —
for both scripts. -/
theorem load_failure_aborts (root : String) (tree : List FSEntry)
    (load : String → Option Atlas.Image) (probe : String → Option (Nat × Nat))
    (outputFileName : String) (prependArg : Option String) :
    ((∃ p ∈ sortPaths (getImageFilesRecursively root tree), load p = none) →
      Atlas.createSpritesheet root tree load = ⟨1, none⟩) ∧
    ((∀ p ∈ sortPaths (getImageFilesRecursively root tree), (load p).isSome) →
      (Atlas.createSpritesheet root tree load).exitCode = 0) ∧
    ((∃ p ∈ sortPaths (getImageFilesRecursively root tree), probe p = none) →
      GenText.generateAtlasTextFile root tree probe outputFileName prependArg =
        ⟨1, none⟩) ∧
    ((∀ p ∈ sortPaths (getImageFilesRecursively root tree), (probe p).isSome) →
      (GenText.generateAtlasTextFile root tree probe outputFileName
        prependArg).exitCode = 0) := by
  refine ⟨?_, ?_, ?_, ?_⟩
  · rintro ⟨p, hp, hnone⟩
    have hne : sortPaths (getImageFilesRecursively root tree) ≠ [] :=
      List.ne_nil_of_mem hp
    have hm := mapM_eq_none_of_mem load _ p hp hnone
    unfold Atlas.createSpritesheet
    rw [if_neg hne, hm]
  · intro hall
    by_cases hnil : sortPaths (getImageFilesRecursively root tree) = []
    · unfold Atlas.createSpritesheet
      rw [if_pos hnil]
    · obtain ⟨ys, hys⟩ := mapM_eq_some_of_forall load _ hall
      unfold Atlas.createSpritesheet
      rw [if_neg hnil, hys]
  · rintro ⟨p, hp, hnone⟩
    have hne : sortPaths (getImageFilesRecursively root tree) ≠ [] :=
      List.ne_nil_of_mem hp
    have hm := mapM_eq_none_of_mem
      (fun q => (probe q).map (fun wh => (q, wh.1, wh.2))) _ p hp
      (by show Option.map (fun wh => (p, wh.1, wh.2)) (probe p) = none
          rw [hnone]; rfl)
    unfold GenText.generateAtlasTextFile
    rw [if_neg hne, hm]
  · intro hall
    by_cases hnil : sortPaths (getImageFilesRecursively root tree) = []
    · unfold GenText.generateAtlasTextFile
      rw [if_pos hnil]
    · have hall2 : ∀ p ∈ sortPaths (getImageFilesRecursively root tree),
          ((fun q => (probe q).map (fun wh => (q, wh.1, wh.2))) p).isSome := by
        intro p hp
        have h1 := hall p hp
        obtain ⟨wh, hwh⟩ := Option.isSome_iff_exists.mp h1
        show (Option.map (fun wh => (p, wh.1, wh.2)) (probe p)).isSome
        rw [hwh]
        rfl
      obtain ⟨ys, hys⟩ := mapM_eq_some_of_forall _ _ hall2
      unfold GenText.generateAtlasTextFile
      rw [if_neg hnil, hys]

/-- Witness for C7 at a one-image directory, with a failing and a
succeeding loader and prober. -/
theorem load_failure_aborts_witness :
    (∃ p ∈ sortPaths (getImageFilesRecursively "r" [FSEntry.file "a.png"]),
      (fun _ => (none : Option Atlas.Image)) p = none) ∧
    Atlas.createSpritesheet "r" [FSEntry.file "a.png"] (fun _ => none) =
      ⟨1, none⟩ ∧
    (∀ p ∈ sortPaths (getImageFilesRecursively "r" [FSEntry.file "a.png"]),
      ((fun _ => some (⟨1, 1, fun _ _ => 0⟩ : Atlas.Image)) p).isSome) ∧
    (Atlas.createSpritesheet "r" [FSEntry.file "a.png"]
      (fun _ => some ⟨1, 1, fun _ _ => 0⟩)).exitCode = 0 ∧
    (∃ p ∈ sortPaths (getImageFilesRecursively "r" [FSEntry.file "a.png"]),
      (fun _ => (none : Option (Nat × Nat))) p = none) ∧
    GenText.generateAtlasTextFile "r" [FSEntry.file "a.png"] (fun _ => none)
      "tiles.txt" none = ⟨1, none⟩ ∧
    (∀ p ∈ sortPaths (getImageFilesRecursively "r" [FSEntry.file "a.png"]),
      ((fun _ => some ((3 : Nat), (4 : Nat))) p).isSome) ∧
    (GenText.generateAtlasTextFile "r" [FSEntry.file "a.png"]
      (fun _ => some (3, 4)) "tiles.txt" none).exitCode = 0 := by
  have hmem : "r/a.png" ∈
      sortPaths (getImageFilesRecursively "r" [FSEntry.file "a.png"]) := by
    simp only [getImageFilesRecursively]; decide
  have hex1 : ∃ p ∈ sortPaths (getImageFilesRecursively "r"
      [FSEntry.file "a.png"]), (fun _ => (none : Option Atlas.Image)) p = none :=
    ⟨"r/a.png", hmem, rfl⟩
  have hex2 : ∃ p ∈ sortPaths (getImageFilesRecursively "r"
      [FSEntry.file "a.png"]), (fun _ => (none : Option (Nat × Nat))) p = none :=
    ⟨"r/a.png", hmem, rfl⟩
  have hall1 : ∀ p ∈ sortPaths (getImageFilesRecursively "r"
      [FSEntry.file "a.png"]),
      ((fun _ => some (⟨1, 1, fun _ _ => 0⟩ : Atlas.Image)) p).isSome :=
    fun p _ => rfl
  have hall2 : ∀ p ∈ sortPaths (getImageFilesRecursively "r"
      [FSEntry.file "a.png"]),
      ((fun _ => some ((3 : Nat), (4 : Nat))) p).isSome :=
    fun p _ => rfl
  exact ⟨hex1,
    (load_failure_aborts "r" [FSEntry.file "a.png"] (fun _ => none)
      (fun _ => none) "tiles.txt" none).1 hex1,
    hall1,
    (load_failure_aborts "r" [FSEntry.file "a.png"]
      (fun _ => some ⟨1, 1, fun _ _ => 0⟩) (fun _ => some (3, 4))
      "tiles.txt" none).2.1 hall1,
    hex2,
    (load_failure_aborts "r" [FSEntry.file "a.png"] (fun _ => none)
      (fun _ => none) "tiles.txt" none).2.2.1 hex2,
    hall2,
    (load_failure_aborts "r" [FSEntry.file "a.png"]
      (fun _ => some ⟨1, 1, fun _ _ => 0⟩) (fun _ => some (3, 4))
      "tiles.txt" none).2.2.2 hall2⟩

/-- C3: for the same ordered input dimensions, the image-builder's layout
(the `maxWidth`/`totalHeight` fold and the composite paste coordinates) and
the descriptor-builder's layout (its size-header fold and the region
`xy`/`size` values, in region order) are identical. -/
theorem layouts_agree (imgs : List (Nat × Nat)) :
    Atlas.canvasSpec imgs = GenText.canvasSpec imgs ∧
    (GenText.regionPlacements 0 imgs).map (fun p => (p.x, p.y)) =
      Atlas.compositeOffsets 0 imgs ∧
    (GenText.regionPlacements 0 imgs).map (fun p => (p.width, p.height)) =
      imgs :=
  ⟨rfl, layout_map_xy imgs 0, layout_map_sizes imgs 0⟩

theorem foldl_append_eq (l : List String) (b : String) :
    l.foldl (· ++ ·) b = b ++ l.foldl (· ++ ·) "" := by
  induction l generalizing b with
  | nil => exact (String.append_empty b).symm
  | cons x xs ih =>
    rw [List.foldl_cons, List.foldl_cons, ih (b ++ x), ih ("" ++ x),
      String.append_assoc]
    rfl

theorem join_cons (s : String) (l : List String) :
    String.join (s :: l) = s ++ String.join l := by
  show (s :: l).foldl (· ++ ·) "" = s ++ l.foldl (· ++ ·) ""
  rw [List.foldl_cons, foldl_append_eq l ("" ++ s)]
  rfl

theorem xy_zero_merge (s : String) :
    "  xy: " ++ ("0" ++ (", " ++ s)) = "  xy: 0, " ++ s := by
  rw [← String.append_assoc, ← String.append_assoc]
  rfl

theorem specRegionBlock_x0 (name : String) (y w h : Nat) :
    specRegionBlock (name, ⟨0, y, w, h⟩) =
      name ++ "\n" ++
      "  rotate: false\n" ++
      "  xy: 0, " ++ toString y ++ "\n" ++
      "  size: " ++ toString w ++ ", " ++ toString h ++ "\n" ++
      "  orig: " ++ toString w ++ ", " ++ toString h ++ "\n" ++
      "  offset: 0, 0\n" ++
      "  index: -1\n" := by
  show name ++ "\n" ++
      "  rotate: false\n" ++
      "  xy: " ++ toString (0 : Nat) ++ ", " ++ toString y ++ "\n" ++
      "  size: " ++ toString w ++ ", " ++ toString h ++ "\n" ++
      "  orig: " ++ toString w ++ ", " ++ toString h ++ "\n" ++
      "  offset: 0, 0\n" ++
      "  index: -1\n" = _
  rw [show toString (0 : Nat) = "0" from rfl]
  simp only [String.append_assoc]
  rw [xy_zero_merge]

theorem regionBlocks_eq_spec (prependPath dir : String) (y : Nat)
    (imageData : List (String × Nat × Nat)) :
    GenText.regionBlocks prependPath dir y imageData =
      String.join (((imageData.map
          (fun i => specRegionName prependPath dir i.1)).zip
        (GenText.regionPlacements y
          (imageData.map (fun i => (i.2.1, i.2.2))))).map specRegionBlock) := by
  induction imageData generalizing y with
  | nil => rfl
  | cons i rest ih =>
    obtain ⟨p, w, h⟩ := i
    simp only [GenText.regionBlocks, GenText.regionPlacements, List.map_cons,
      List.zip_cons_cons]
    rw [join_cons, specRegionBlock_x0, ih (y + h)]
    simp only [specRegionName, String.append_assoc]

set_option maxRecDepth 16384 in
/-- C8: the descriptor text built by `generateAtlasTextFile` is byte for
byte the §4.4 document rendered from the derived atlas reference name, the
accumulated canvas spec and the placement sequence, with each region named
by its root-relative slash-normalized extension-stripped path behind the
prepend path; and on the spec's two-image example the rendered document is
exactly the expected literal text. -/
theorem descriptor_rendered_as_specified (outputFileName : String)
    (prependArg : Option String) (dir : String)
    (imageData : List (String × Nat × Nat)) :
    (GenText.generateAtlasContent
        (GenText.outputImageReferenceName outputFileName)
        (GenText.prependPathOf prependArg) dir imageData =
      specDescriptorDoc (GenText.outputImageReferenceName outputFileName)
        (GenText.canvasSpec (imageData.map (fun i => (i.2.1, i.2.2))))
        ((imageData.map (fun i =>
            specRegionName (GenText.prependPathOf prependArg) dir i.1)).zip
          (GenText.regionPlacements 0
            (imageData.map (fun i => (i.2.1, i.2.2)))))) ∧
    GenText.generateAtlasContent
        (GenText.outputImageReferenceName "game.txt")
        (GenText.prependPathOf none) "root"
        [("root/a/1.png", 10, 20), ("root/b/2.png", 30, 5)] =
      "game.png\nsize: 30, 25\nformat: RGBA8888\nfilter: MipMapLinearLinear, MipMapLinearLinear\nrepeat: none\na/1\n  rotate: false\n  xy: 0, 0\n  size: 10, 20\n  orig: 10, 20\n  offset: 0, 0\n  index: -1\nb/2\n  rotate: false\n  xy: 0, 20\n  size: 30, 5\n  orig: 30, 5\n  offset: 0, 0\n  index: -1\n" := by
  constructor
  · simp only [GenText.generateAtlasContent, GenText.headerLines,
      specDescriptorDoc]
    rw [regionBlocks_eq_spec]
  · decide

theorem heightsBefore_succ_cons (img : Atlas.Image) (rest : List Atlas.Image)
    (i : Nat) :
    heightsBefore (img :: rest) (i + 1) = img.height + heightsBefore rest i := by
  simp [heightsBefore, List.take_succ_cons]

theorem compositeAll_width (sheet : Atlas.Image) (y : Nat)
    (images : List Atlas.Image) :
    (Atlas.compositeAll sheet y images).width = sheet.width := by
  induction images generalizing sheet y with
  | nil => rfl
  | cons img rest ih => exact ih _ _

theorem compositeAll_height (sheet : Atlas.Image) (y : Nat)
    (images : List Atlas.Image) :
    (Atlas.compositeAll sheet y images).height = sheet.height := by
  induction images generalizing sheet y with
  | nil => rfl
  | cons img rest ih => exact ih _ _

theorem compositeAll_pix_low (sheet : Atlas.Image) (y : Nat)
    (images : List Atlas.Image) (x y' : Nat) (h : y' < y) :
    (Atlas.compositeAll sheet y images).pix x y' = sheet.pix x y' := by
  induction images generalizing sheet y with
  | nil => rfl
  | cons img rest ih =>
    rw [show Atlas.compositeAll sheet y (img :: rest) =
      Atlas.compositeAll (Atlas.composite sheet img 0 y) (y + img.height) rest
      from rfl]
    rw [ih (Atlas.composite sheet img 0 y) (y + img.height)
      (lt_of_lt_of_le h (Nat.le_add_right y img.height))]
    show (if 0 ≤ x ∧ x < 0 + img.width ∧ y ≤ y' ∧ y' < y + img.height then
        img.pix (x - 0) (y' - y)
      else sheet.pix x y') = sheet.pix x y'
    rw [if_neg]
    rintro ⟨-, -, hy, -⟩
    exact absurd h (not_lt.mpr hy)

theorem compositeAll_pix_untouched (sheet : Atlas.Image) (y : Nat)
    (images : List Atlas.Image) (x y' : Nat)
    (h : ∀ i, i < images.length →
      ¬ (x < (images.getD i default).width ∧
         y + heightsBefore images i ≤ y' ∧
         y' < y + heightsBefore images i + (images.getD i default).height)) :
    (Atlas.compositeAll sheet y images).pix x y' = sheet.pix x y' := by
  induction images generalizing sheet y with
  | nil => rfl
  | cons img rest ih =>
    have h0 := h 0 (Nat.succ_pos _)
    have hrest : ∀ i, i < rest.length →
        ¬ (x < (rest.getD i default).width ∧
           (y + img.height) + heightsBefore rest i ≤ y' ∧
           y' < (y + img.height) + heightsBefore rest i +
             (rest.getD i default).height) := by
      intro i hi
      have hsucc := h (i + 1) (Nat.succ_lt_succ hi)
      simpa [heightsBefore_succ_cons, List.getD_cons_succ, Nat.add_assoc,
        Nat.add_comm, Nat.add_left_comm] using hsucc
    rw [show Atlas.compositeAll sheet y (img :: rest) =
      Atlas.compositeAll (Atlas.composite sheet img 0 y) (y + img.height) rest
      from rfl]
    rw [ih (Atlas.composite sheet img 0 y) (y + img.height) hrest]
    show (if 0 ≤ x ∧ x < 0 + img.width ∧ y ≤ y' ∧ y' < y + img.height then
        img.pix (x - 0) (y' - y)
      else sheet.pix x y') = sheet.pix x y'
    rw [if_neg]
    rintro ⟨hx1, hx2, hy1, hy2⟩
    refine h0 ⟨by simpa using hx2, ?_, ?_⟩
    · simpa [heightsBefore, List.getD_cons_zero] using hy1
    · simpa [heightsBefore, List.getD_cons_zero] using hy2

theorem compositeAll_pix_covered (images : List Atlas.Image)
    (sheet : Atlas.Image) (y i x dy : Nat) (hi : i < images.length)
    (hx : x < (images.getD i default).width)
    (hdy : dy < (images.getD i default).height) :
    (Atlas.compositeAll sheet y images).pix x
        (y + heightsBefore images i + dy) =
      (images.getD i default).pix x dy := by
  induction images generalizing sheet y i with
  | nil => simp at hi
  | cons img rest ih =>
    rw [show Atlas.compositeAll sheet y (img :: rest) =
      Atlas.compositeAll (Atlas.composite sheet img 0 y) (y + img.height) rest
      from rfl]
    cases i with
    | zero =>
      have hdy0 : dy < img.height := hdy
      have hlow : y + heightsBefore (img :: rest) 0 + dy < y + img.height := by
        simp only [heightsBefore, List.take_zero, List.map_nil, List.sum_nil,
          Nat.add_zero]
        omega
      rw [compositeAll_pix_low _ _ rest x _ hlow]
      show (if 0 ≤ x ∧ x < 0 + img.width ∧
          y ≤ y + heightsBefore (img :: rest) 0 + dy ∧
          y + heightsBefore (img :: rest) 0 + dy < y + img.height then
        img.pix (x - 0) (y + heightsBefore (img :: rest) 0 + dy - y)
      else sheet.pix x (y + heightsBefore (img :: rest) 0 + dy)) =
        ((img :: rest).getD 0 default).pix x dy
      rw [if_pos]
      · have e1 : y + heightsBefore (img :: rest) 0 + dy - y = dy := by
          simp only [heightsBefore, List.take_zero, List.map_nil, List.sum_nil,
            Nat.add_zero]
          omega
        rw [e1, show x - 0 = x from rfl]
        rfl
      · refine ⟨Nat.zero_le x, by simpa using hx, ?_, hlow⟩
        simp only [heightsBefore, List.take_zero, List.map_nil, List.sum_nil,
          Nat.add_zero]
        omega
    | succ n =>
      have hi' : n < rest.length := Nat.lt_of_succ_lt_succ hi
      have e2 : y + heightsBefore (img :: rest) (n + 1) + dy =
          (y + img.height) + heightsBefore rest n + dy := by
        rw [heightsBefore_succ_cons]
        omega
      rw [e2]
      exact ih (Atlas.composite sheet img 0 y) (y + img.height) n hi' hx hdy

/-- C9: the compositor allocates a canvas of exactly the accumulated
`maxWidth × totalHeight` with every pixel fully transparent, and then
writes every image's pixels at `(0, yOffset)` as a straight overwrite: a
pixel inside image `i`'s pasted rectangle holds exactly that image's
sample, and a pixel covered by no pasted rectangle stays fully transparent
(value 0). -/
theorem compositor_transparent_overwrite (images : List Atlas.Image) :
    (Atlas.buildSpritesheet images).width =
      (Atlas.canvasSpec (images.map (fun i => (i.width, i.height)))).1 ∧
    (Atlas.buildSpritesheet images).height =
      (Atlas.canvasSpec (images.map (fun i => (i.width, i.height)))).2 ∧
    (∀ i x dy, i < images.length →
      x < (images.getD i default).width →
      dy < (images.getD i default).height →
      (Atlas.buildSpritesheet images).pix x (heightsBefore images i + dy) =
        (images.getD i default).pix x dy) ∧
    (∀ x y, (∀ i, i < images.length →
        ¬ (x < (images.getD i default).width ∧
           heightsBefore images i ≤ y ∧
           y < heightsBefore images i + (images.getD i default).height)) →
      (Atlas.buildSpritesheet images).pix x y = 0) := by
  refine ⟨compositeAll_width _ _ _, compositeAll_height _ _ _, ?_, ?_⟩
  · intro i x dy hi hx hdy
    have hcov := compositeAll_pix_covered images
      (Atlas.blankCanvas
        (Atlas.canvasSpec (images.map (fun i => (i.width, i.height)))).1
        (Atlas.canvasSpec (images.map (fun i => (i.width, i.height)))).2)
      0 i x dy hi hx hdy
    simpa [Nat.zero_add] using hcov
  · intro x y h
    have hun := compositeAll_pix_untouched
      (Atlas.blankCanvas
        (Atlas.canvasSpec (images.map (fun i => (i.width, i.height)))).1
        (Atlas.canvasSpec (images.map (fun i => (i.width, i.height)))).2)
      0 images x y
      (by intro i hi; simpa [Nat.zero_add] using h i hi)
    simpa [Nat.zero_add] using hun

/-- Two concrete images for exercising the compositor: a 1×2 column of
fives above a 2×1 row of nines. -/
def sampleImages : List Atlas.Image :=
  [⟨1, 2, fun _ _ => 5⟩, ⟨2, 1, fun _ _ => 9⟩]

/-- Witness for C9 on `sampleImages`: the canvas is 2×3, the pixel at
`(0, 2)` comes from the second image, and the pixel at `(1, 0)` — beside
the narrow first image and above the second — stays transparent. -/
theorem compositor_transparent_overwrite_witness :
    (Atlas.buildSpritesheet sampleImages).width =
      (Atlas.canvasSpec (sampleImages.map (fun i => (i.width, i.height)))).1 ∧
    (1 < sampleImages.length ∧
     0 < (sampleImages.getD 1 default).width ∧
     0 < (sampleImages.getD 1 default).height ∧
     (Atlas.buildSpritesheet sampleImages).pix 0
        (heightsBefore sampleImages 1 + 0) =
       (sampleImages.getD 1 default).pix 0 0) ∧
    ((∀ i, i < sampleImages.length →
        ¬ (1 < (sampleImages.getD i default).width ∧
           heightsBefore sampleImages i ≤ 0 ∧
           0 < heightsBefore sampleImages i +
             (sampleImages.getD i default).height)) ∧
     (Atlas.buildSpritesheet sampleImages).pix 1 0 = 0) :=
  ⟨(compositor_transparent_overwrite sampleImages).1,
   ⟨by decide, by decide, by decide,
    (compositor_transparent_overwrite sampleImages).2.2.1 1 0 0 (by decide)
      (by decide) (by decide)⟩,
   ⟨by decide,
    (compositor_transparent_overwrite sampleImages).2.2.2 1 0 (by decide)⟩⟩

/-- C10: both CLI entry points join the root-directory argument and the
output-file-name argument onto the directory of the script file itself, so
the resolved paths are a pure function of the argument strings and the
script location — identical under any two current working directories. -/
theorem paths_independent_of_cwd (scriptDir cwd₁ cwd₂ : String)
    (args : List String) :
    resolveScriptPaths scriptDir cwd₁ args =
      resolveScriptPaths scriptDir cwd₂ args ∧
    (∀ a0 a1 rest, args = a0 :: a1 :: rest →
      resolveScriptPaths scriptDir cwd₁ args =
        some (pathJoin scriptDir a0, pathJoin scriptDir a1)) := by
  refine ⟨rfl, ?_⟩
  rintro a0 a1 rest rfl
  rfl

/-- Witness for C10 at concrete arguments and two different working
directories. -/
theorem paths_independent_of_cwd_witness :
    resolveScriptPaths "scripts" "/cwd1" ["images", "out.png"] =
      resolveScriptPaths "scripts" "/cwd2" ["images", "out.png"] ∧
    (["images", "out.png"] = "images" :: "out.png" :: ([] : List String)) ∧
    resolveScriptPaths "scripts" "/cwd1" ["images", "out.png"] =
      some (pathJoin "scripts" "images", pathJoin "scripts" "out.png") :=
  ⟨(paths_independent_of_cwd "scripts" "/cwd1" "/cwd2" ["images", "out.png"]).1,
   rfl,
   (paths_independent_of_cwd "scripts" "/cwd1" "/cwd2"
     ["images", "out.png"]).2 "images" "out.png" [] rfl⟩
